import Mathlib

/-!
Verification of the QL generation core (`swift/codegen/generators/qlgen.py`).

The Python source is shallowly embedded below.  Conventions used throughout:

* Python class/property records (`schema.Class`, `schema.Property`, `ql.Class`,
  `ql.Property`, from `swift/codegen/lib`, not shipped under `src/`) are
  modelled from the spec's data-model section as plain structures.
* A property is identified by its position in its owning class's property
  list: the source compares property objects by identity (`p is prop`,
  `id(p)`), and the schema loader creates one fresh object per declared
  property, so object identity coincides with (owning class, position).
* A class set (`lookup` in the source) is a `List QLClass`; a class is
  identified by its index.  Base references are by name, resolved with
  `resolveBase`.  The source recurses over an acyclic inheritance graph;
  acyclicity is embedded as topological order (every base resolves to a
  strictly smaller index, `envWF`), and each recursive call is guarded by
  the corresponding `j < i` test, which is vacuous on well-formed input.
* File contents are strings over the ASCII/LF domain (Python text mode);
  `pySplitLines` reproduces Python's line iteration (lines keep their
  terminating newline).
-/

namespace Codegen

/-- Multiplicity kind of a schema property: exactly one of
single/optional/repeated/predicate (spec data model). -/
inductive Multiplicity where
  | single
  | optional
  | repeated
  | predicate
deriving DecidableEq

/-- Modelled from the spec: `schema.Property` (from `swift/codegen/lib/schema`,
not under `src/`): name, declared type name, multiplicity kind, pragma tags,
child flag. -/
structure SchemaProperty where
  name : String
  type : String
  multiplicity : Multiplicity
  pragmas : List String := []
  is_child : Bool := false
deriving DecidableEq

/-- `prop.is_single` of the source. -/
def SchemaProperty.is_single (p : SchemaProperty) : Bool :=
  match p.multiplicity with
  | Multiplicity.single => true
  | _ => false

/-- `prop.is_optional` of the source. -/
def SchemaProperty.is_optional (p : SchemaProperty) : Bool :=
  match p.multiplicity with
  | Multiplicity.optional => true
  | _ => false

/-- `prop.is_repeated` of the source. -/
def SchemaProperty.is_repeated (p : SchemaProperty) : Bool :=
  match p.multiplicity with
  | Multiplicity.repeated => true
  | _ => false

/-- `prop.is_predicate` of the source. -/
def SchemaProperty.is_predicate (p : SchemaProperty) : Bool :=
  match p.multiplicity with
  | Multiplicity.predicate => true
  | _ => false

/-- Modelled from the spec: `schema.Class` (not under `src/`): name, ordered
base names, the names of classes deriving from it, ordered properties,
pragma tags, output directory. -/
structure SchemaClass where
  name : String
  bases : List String := []
  derived : List String := []
  properties : List SchemaProperty := []
  pragmas : List String := []
  dir : String := ""
deriving DecidableEq

/-- Modelled from the spec: `ql.Property` (not under `src/`): the mapped
property record filled in by `get_ql_property`. -/
structure QLProperty where
  singular : String := ""
  plural : Option String := none
  type : String := ""
  tablename : String := ""
  tableparams : List String := []
  qltest_skip : Bool := false
  is_child : Bool := false
  is_optional : Bool := false
  is_predicate : Bool := false
deriving DecidableEq

/-- Modelled from the spec: `ql.Class` (not under `src/`): the mapped class
record filled in by `get_ql_class`. -/
structure QLClass where
  name : String := ""
  bases : List String := []
  final : Bool := false
  properties : List QLProperty := []
  dir : String := ""
  qltest_skip : Bool := false
  qltest_collapse_hierarchy : Bool := false
  qltest_uncollapse_hierarchy : Bool := false
deriving DecidableEq

/-! ### Naming transforms

Modelled from the spec: the external `inflection` library functions used by
the mapper.  The spec only requires them to be "pure deterministic string
functions of the property/class name"; the simplified bodies below are such
functions, and no claim below depends on their exact output. -/

/-- Helper for `underscore`: rewrite every uppercase letter after the first
character to an underscore followed by its lowercase form. -/
def underscoreTail : List Char → List Char
  | [] => []
  | c :: cs => (if c.isUpper then ['_', c.toLower] else [c]) ++ underscoreTail cs

/-- Modelled from the spec: `inflection.underscore`, CamelCase to snake_case. -/
def underscore (s : String) : String :=
  match s.data with
  | [] => ""
  | c :: cs => ⟨c.toLower :: underscoreTail cs⟩

/-- Modelled from the spec: `inflection.pluralize` (simplified plural form). -/
def pluralize (s : String) : String := s ++ "s"

/-- Modelled from the spec: `inflection.singularize` (simplified). -/
def singularize (s : String) : String := s

/-- Modelled from the spec: `inflection.tableize` = pluralized underscored name. -/
def tableize (s : String) : String := pluralize (underscore s)

/-- Helper for `camelize`: drop underscores, uppercasing the letter after each. -/
def camelizeTail : List Char → List Char
  | [] => []
  | c :: cs =>
    if c = '_' then
      match cs with
      | [] => []
      | d :: ds => d.toUpper :: camelizeTail ds
    else c :: camelizeTail cs

/-- Modelled from the spec: `inflection.camelize` with an uppercase first letter. -/
def camelize (s : String) : String :=
  match s.data with
  | [] => ""
  | c :: cs => ⟨c.toUpper :: camelizeTail cs⟩

/-- Modelled from the spec: `inflection.camelize` with
`uppercase_first_letter=False`. -/
def camelizeLowerFirst (s : String) : String :=
  match s.data with
  | [] => ""
  | c :: cs => ⟨c.toLower :: camelizeTail cs⟩

/-! ### Relational mapper (`get_ql_property`, `get_ql_class`) -/

/-- The column comprehension of the single-property branch of
`get_ql_property`:
`["result" if p is prop else "_" for p in cls.properties if p.is_single]`,
where `i` is the position of `prop` and `k` the position of the head of the
remaining property list. -/
def singleSlots (i : Nat) : List SchemaProperty → Nat → List String
  | [], _ => []
  | p :: rest, k =>
    if p.is_single then
      (if k = i then "result" else "_") :: singleSlots i rest (k + 1)
    else singleSlots i rest (k + 1)

/-- `get_ql_property(cls, prop)` where `prop` is the property at position `i`
of `cls.properties` (`none` exactly when `i` is out of range). -/
def getQlProperty (cls : SchemaClass) (i : Nat) : Option QLProperty :=
  match cls.properties[i]? with
  | none => none
  | some prop =>
    match prop.multiplicity with
    | Multiplicity.single =>
      some { singular := camelize prop.name
             type := prop.type
             tablename := tableize cls.name
             tableparams := "this" :: singleSlots i cls.properties 0
             qltest_skip := prop.pragmas.contains "qltest_skip"
             is_child := prop.is_child
             is_optional := false
             is_predicate := false }
    | Multiplicity.repeated =>
      some { singular := singularize (camelize prop.name)
             plural := some (pluralize (camelize prop.name))
             type := prop.type
             tablename := tableize (cls.name ++ "_" ++ prop.name)
             tableparams := ["this", "index", "result"]
             qltest_skip := prop.pragmas.contains "qltest_skip"
             is_child := prop.is_child
             is_optional := false
             is_predicate := false }
    | Multiplicity.optional =>
      some { singular := camelize prop.name
             type := prop.type
             tablename := tableize (cls.name ++ "_" ++ prop.name)
             tableparams := ["this", "result"]
             qltest_skip := prop.pragmas.contains "qltest_skip"
             is_child := prop.is_child
             is_optional := true
             is_predicate := false }
    | Multiplicity.predicate =>
      some { singular := camelizeLowerFirst prop.name
             type := "predicate"
             tablename := underscore (cls.name ++ "_" ++ prop.name)
             tableparams := ["this"]
             qltest_skip := prop.pragmas.contains "qltest_skip"
             is_child := prop.is_child
             is_optional := false
             is_predicate := true }

/-- `get_ql_class`: maps a schema class to its `ql.Class`.  The pragma
dictionary splat is embedded as the three boolean pragma flags the analyzer
reads; `final = not cls.derived`. -/
def getQlClass (cls : SchemaClass) : QLClass :=
  { name := cls.name
    bases := cls.bases
    final := cls.derived.isEmpty
    properties := (List.range cls.properties.length).filterMap (getQlProperty cls)
    dir := cls.dir
    qltest_skip := cls.pragmas.contains "qltest_skip"
    qltest_collapse_hierarchy := cls.pragmas.contains "qltest_collapse_hierarchy"
    qltest_uncollapse_hierarchy := cls.pragmas.contains "qltest_uncollapse_hierarchy" }

/-- One mapper run over the whole schema (`[get_ql_class(cls) for cls in
data.classes]` in `generate`). -/
def mapSchema (classes : List SchemaClass) : List QLClass :=
  classes.map getQlClass

/-! ### Import resolver (`get_types_used_by`, `get_classes_used_by`) -/

/-- `get_types_used_by`: every base name, then every property's declared type. -/
def getTypesUsedBy (cls : QLClass) : List String :=
  cls.bases ++ cls.properties.map (fun p => p.type)

/-- `t[0].isupper()` of the source.  An empty name would raise `IndexError`
in the source and is outside the modelled domain (theorems assume nonempty
type names). -/
def isClassRef (t : String) : Bool :=
  match t.data with
  | [] => false
  | c :: _ => c.isUpper

/-- Python's `<=` on strings: lexicographic comparison by code point. -/
def lexLeChars : List Char → List Char → Bool
  | [], _ => true
  | _ :: _, [] => false
  | a :: as, b :: bs =>
    if a < b then true
    else if b < a then false
    else lexLeChars as bs

/-- Python's `<=` on strings, on `String`. -/
def strLe (a b : String) : Bool := lexLeChars a.data b.data

/-- `get_classes_used_by`: `sorted(set(t for t in get_types_used_by(cls) if
t[0].isupper()))`.  Python's `sorted(set(..))` is the strictly sorted list of
the distinct kept elements, which `dedup` + insertion sort also produces. -/
def getClassesUsedBy (cls : QLClass) : List String :=
  (((getTypesUsedBy cls).filter isClassRef).dedup).insertionSort
    (fun a b => strLe a b = true)

/-! ### Stub guard (`_is_generated_stub` and the regex) -/

/-- Python `\w` over the ASCII domain. -/
def isWordChar (c : Char) : Bool := c.isAlphanum || c = '_'

/-- Match a literal pattern fragment, returning the remaining input. -/
def matchLit : List Char → List Char → Option (List Char)
  | [], s => some s
  | _ :: _, [] => none
  | p :: ps, c :: cs => if p = c then matchLit ps cs else none

/-- Match `\w+` (greedy; the following pattern characters are never word
characters, so greedy matching is exact here). -/
def matchWordPlus : List Char → Option (List Char)
  | [] => none
  | c :: cs => if isWordChar c then some (cs.dropWhile isWordChar) else none

/-- Match the character class `[ \n]`. -/
def matchSpaceOrNewline : List Char → Option (List Char)
  | [] => none
  | c :: cs => if c = ' ' ∨ c = '\n' then some cs else none

/-- `_generated_stub_re.match`: anchored prefix match of
`private import .*\n\nclass \w+ extends \w+ \x7b[ \n]\x7d`.  `.` does not
match a newline, so the greedy `.*` consumes exactly the rest of the first
line; `re.MULTILINE` is irrelevant (no `^`/`$` in the pattern); a match may
leave trailing input unconsumed, as `re.match` does. -/
def stubReMatchChars (s : List Char) : Bool :=
  match matchLit ("private import ").data s with
  | none => false
  | some r1 =>
    match matchLit ("\n\nclass ").data (r1.dropWhile (fun c => c != '\n')) with
    | none => false
    | some r2 =>
      match matchWordPlus r2 with
      | none => false
      | some r3 =>
        match matchLit (" extends ").data r3 with
        | none => false
        | some r4 =>
          match matchWordPlus r4 with
          | none => false
          | some r5 =>
            match matchLit (" \x7b").data r5 with
            | none => false
            | some r6 =>
              match matchSpaceOrNewline r6 with
              | none => false
              | some r7 =>
                match matchLit ("\x7d").data r7 with
                | none => false
                | some _ => true

/-- `_generated_stub_re.match` on a string. -/
def generatedStubReMatch (s : String) : Bool := stubReMatchChars s.data

/-- Helper for `pySplitLines`: accumulate the current (reversed) line. -/
def splitLinesAux : List Char → List Char → List String
  | [], acc => if acc.isEmpty then [] else [⟨acc.reverse⟩]
  | c :: cs, acc =>
    if c = '\n' then ⟨(c :: acc).reverse⟩ :: splitLinesAux cs []
    else splitLinesAux cs (c :: acc)

/-- Python text-file line iteration: split after every newline, keeping the
newline on each line; a nonempty final fragment without a newline is a line. -/
def pySplitLines (s : String) : List String := splitLinesAux s.data []

/-- The error raised by `_is_generated_stub`
(`ModifiedStubMarkedAsGeneratedError`). -/
inductive StubError where
  | modifiedStubMarkedAsGenerated
deriving DecidableEq

/-- `line.startswith("// generated")`. -/
def startsWithMarker (line : String) : Bool :=
  List.isPrefixOf ("// generated").data line.data

/-- `_is_generated_stub`: on zero lines return `False`; if the first line
does not start with the marker return `False`; otherwise read up to 5
further lines — if 5 could be read, or the joined captured lines do not
match the stub pattern, raise; else return `True`. -/
def isGeneratedStub (content : String) : Except StubError Bool :=
  match pySplitLines content with
  | [] => Except.ok false
  | first :: rest =>
    if startsWithMarker first then
      if (rest.take 5).length == 5 || !generatedStubReMatch (String.join (rest.take 5)) then
        Except.error StubError.modifiedStubMarkedAsGenerated
      else Except.ok true
    else Except.ok false

/-- The driver's stub decision in `generate`:
`if not stub_file.is_file() or _is_generated_stub(stub_file): render`.
Returns whether the stub is (re)rendered; propagates the guard's error. -/
def stubShouldRender (fileIsPresent : Bool) (content : String) : Except StubError Bool :=
  if !fileIsPresent then Except.ok true
  else isGeneratedStub content

/-! ### Hierarchy analyzer -/

/-- `lookup[b]` of the source: resolve a base name to the index of its class. -/
def resolveBase (env : List QLClass) (b : String) : Option Nat :=
  env.findIdx? (fun c => c.name == b)

mutual

/-- `_is_under_qltest_collapsed_hierachy`: no explicit uncollapse override and
some base is collapsed-or-under-collapsed.  The `j < i` guard embeds the
source's termination on an acyclic graph (see the header comment). -/
def isUnderCollapsed (env : List QLClass) (i : Nat) : Bool :=
  match env[i]? with
  | none => false
  | some c => !c.qltest_uncollapse_hierarchy && anyBaseCollapsed env i c.bases

/-- The `any(... for b in cls.bases)` of
`_is_under_qltest_collapsed_hierachy`. -/
def anyBaseCollapsed (env : List QLClass) (i : Nat) (bs : List String) : Bool :=
  match bs with
  | [] => false
  | b :: rest =>
    (match resolveBase env b with
     | none => false
     | some j => if _h : j < i then isInCollapsed env j else false)
    || anyBaseCollapsed env i rest

/-- `_is_in_qltest_collapsed_hierachy`: explicit collapse pragma or
under-collapsed. -/
def isInCollapsed (env : List QLClass) (j : Nat) : Bool :=
  match env[j]? with
  | none => false
  | some c => c.qltest_collapse_hierarchy || isUnderCollapsed env j

end

/-- `_should_skip_qltest`. -/
def shouldSkipQltest (env : List QLClass) (i : Nat) : Bool :=
  match env[i]? with
  | none => false
  | some c =>
    c.qltest_skip || !(c.final || c.qltest_collapse_hierarchy) || isUnderCollapsed env i

/-- Well-formed class set: class names are distinct (schema names are unique)
and every base resolves to a strictly earlier class (topological order, the
embedding of an acyclic inheritance graph with no dangling base names). -/
def envWF (env : List QLClass) : Bool :=
  decide ((env.map (fun c => c.name)).Nodup) &&
  (List.range env.length).all (fun i =>
    match env[i]? with
    | none => true
    | some c => c.bases.all (fun b =>
        match resolveBase env b with
        | none => false
        | some j => decide (j < i)))

/-- Direct or transitive derivation: `Derives env d a` holds when class `d`
lists (a base resolving to) `a`, directly or through intermediate classes. -/
inductive Derives (env : List QLClass) : Nat → Nat → Prop
  | direct (i : Nat) (c : QLClass) (b : String) (j : Nat) :
      env[i]? = some c → b ∈ c.bases → resolveBase env b = some j → Derives env i j
  | trans (i k j : Nat) : Derives env i k → Derives env k j → Derives env i j

/-- A derivation chain from `d` down to ancestor `a` on which every class
strictly below `a` (including `d` itself) carries no explicit uncollapse
override. -/
inductive CleanDerives (env : List QLClass) : Nat → Nat → Prop
  | direct (i : Nat) (c : QLClass) (b : String) (j : Nat) :
      env[i]? = some c → c.qltest_uncollapse_hierarchy = false →
      b ∈ c.bases → resolveBase env b = some j → CleanDerives env i j
  | tail (i : Nat) (c : QLClass) (b : String) (k j : Nat) :
      env[i]? = some c → c.qltest_uncollapse_hierarchy = false →
      b ∈ c.bases → resolveBase env b = some k → CleanDerives env k j →
      CleanDerives env i j

/-! ### Property flattening (`_get_all_properties`,
`_get_all_properties_to_be_tested`)

Flattened properties are identified by (owning class index, position), the
embedding of the source's object identity (`id(p)`, see header comment). -/

mutual

/-- `_get_all_properties`: ancestors' properties first (bases in order, each
recursively), then the class's own properties, every property paired with
its owning class. -/
def getAllProperties (env : List QLClass) (i : Nat) : List (Nat × Nat) :=
  match env[i]? with
  | none => []
  | some c =>
    getAllPropertiesBases env i c.bases ++
      (List.range c.properties.length).map (fun j => (i, j))

/-- The `for b in cls.bases` loop of `_get_all_properties`. -/
def getAllPropertiesBases (env : List QLClass) (i : Nat) (bs : List String) :
    List (Nat × Nat) :=
  match bs with
  | [] => []
  | b :: rest =>
    (match resolveBase env b with
     | none => []
     | some j => if _h : j < i then getAllProperties env j else [])
    ++ getAllPropertiesBases env i rest

end

/-- The skip test of `_get_all_properties_to_be_tested`:
`c.qltest_skip or p.qltest_skip` for the pair's owning class and property
(an unresolvable pair never arises from `getAllProperties`). -/
def skippedProp (env : List QLClass) (x : Nat × Nat) : Bool :=
  match env[x.1]? with
  | none => true
  | some c =>
    match c.properties[x.2]? with
    | none => true
    | some p => c.qltest_skip || p.qltest_skip

/-- The filtering loop of `_get_all_properties_to_be_tested`: drop skipped
and already-seen properties, remembering every yielded property. -/
def filterTested (env : List QLClass) : List (Nat × Nat) → List (Nat × Nat) → List (Nat × Nat)
  | [], _ => []
  | x :: rest, seen =>
    if skippedProp env x || seen.contains x then filterTested env rest seen
    else x :: filterTested env rest (x :: seen)

/-- `_get_all_properties_to_be_tested` (as the list of yielded property
identities; the source projects each to a `PropertyForTest` record). -/
def getAllPropertiesToBeTested (env : List QLClass) (i : Nat) : List (Nat × Nat) :=
  filterTested env (getAllProperties env i) []

/-! ### Import resolution in the driver (`generate`) -/

/-- `[imports[t] for t in get_classes_used_by(c)]`: the comprehension raises
`KeyError` (`none`) at the first referenced name absent from the import map,
producing no (partial) list. -/
def resolveImportsList (importMap : List (String × String)) : List String → Option (List String)
  | [] => some []
  | t :: rest =>
    match importMap.lookup t with
    | none => none
    | some p =>
      match resolveImportsList importMap rest with
      | none => none
      | some ps => some (p :: ps)

/-- The import list computed for one class in `generate`. -/
def resolveImports (importMap : List (String × String)) (cls : QLClass) :
    Option (List String) :=
  resolveImportsList importMap (getClassesUsedBy cls)

/-- The per-class emission loop of `generate`, restricted to what the claims
are about: for each class in order, compute its import list, then record the
class as emitted; a `KeyError` aborts the run. -/
def emitClasses (importMap : List (String × String)) :
    List QLClass → Except String (List (String × List String))
  | [] => Except.ok []
  | c :: rest =>
    match resolveImports importMap c with
    | none => Except.error c.name
    | some imps =>
      match emitClasses importMap rest with
      | Except.error e => Except.error e
      | Except.ok out => Except.ok ((c.name, imps) :: out)

/-! ## Stub-guard claims (C2, C3, C10) -/

/-- A pristine stub body as emitted by the renderer (4 lines). -/
def pristineStubBody : String := "private import X\n\nclass A extends B \x7b\n\x7d"

/-- A file with two marker lines followed by a pristine stub body. -/
def contentC2cex : String := "// generated\n// generated\n" ++ pristineStubBody

/-- A file with one marker line followed by a pristine stub body. -/
def contentC2wit : String := "// generated\n" ++ pristineStubBody

/-- A file with one marker line followed by exactly five lines whose join
matches the structural pattern (a prefix match, as `re.match` performs). -/
def contentC3cex : String :=
  "// generated\nprivate import X\n\nclass A extends B \x7b\n\x7d\nextra"

/-- C2 counterexample: the claim says every file whose first N ≥ 1 lines all
carry the marker, followed by a pristine stub body, is classified pristine.
For N = 2 the guard instead raises the modified-stub error: only the first
line is treated as the marker preamble, and the second marker line counts
against the structural check. -/
theorem C2_cex_second_marker_line_rejected :
    startsWithMarker "// generated\n" = true ∧
    pySplitLines contentC2cex =
      "// generated\n" :: "// generated\n" :: pySplitLines pristineStubBody ∧
    generatedStubReMatch pristineStubBody = true ∧
    isGeneratedStub contentC2cex = Except.error StubError.modifiedStubMarkedAsGenerated :=
  ⟨rfl, rfl, rfl, rfl⟩

/-- C2 (amended): the marker preamble is exactly the first line.  A file
whose first line starts with the marker, with fewer than five lines after it
whose join matches the stub pattern, is classified pristine; further
marker-prefixed lines are not consumed as preamble (see the counterexample). -/
theorem C2_amended_first_line_only_marker (content first : String) (rest : List String)
    (h : pySplitLines content = first :: rest)
    (hm : startsWithMarker first = true)
    (hlen : rest.length < 5)
    (hre : generatedStubReMatch (String.join rest) = true) :
    isGeneratedStub content = Except.ok true := by
  have htake : rest.take 5 = rest := List.take_of_length_le (Nat.le_of_lt hlen)
  have hne : ((rest.take 5).length == 5) = false := by
    rw [htake, beq_eq_false_iff_ne]
    omega
  unfold isGeneratedStub
  rw [h]
  simp [hm, hne, htake, hre]
  omega

/-- C2 witness: a one-marker-line pristine stub is classified pristine. -/
theorem C2_witness : isGeneratedStub contentC2wit = Except.ok true := by
  exact C2_amended_first_line_only_marker contentC2wit "// generated\n"
    ["private import X\n", "\n", "class A extends B \x7b\n", "\x7d"]
    rfl rfl (by decide) rfl

/-- C3 counterexample: the claim says a file with exactly 5 lines after the
marker preamble that match the structural pattern is not an error.  On such
a file the guard raises the modified-stub error: having read a full 5 lines
is itself the error condition. -/
theorem C3_cex_exactly_five_lines_error :
    pySplitLines contentC3cex =
      "// generated\n" ::
        ["private import X\n", "\n", "class A extends B \x7b\n", "\x7d\n", "extra"] ∧
    startsWithMarker "// generated\n" = true ∧
    generatedStubReMatch
      (String.join ["private import X\n", "\n", "class A extends B \x7b\n", "\x7d\n", "extra"]) =
      true ∧
    isGeneratedStub contentC3cex = Except.error StubError.modifiedStubMarkedAsGenerated :=
  ⟨rfl, rfl, rfl, rfl⟩

/-- C3 (amended): for a file whose first line carries the marker, the guard
errors iff at least 5 lines follow the marker line (reading 5 further lines
means the file exceeds the 4-line stub shape) or the captured (up to 5)
lines do not match the structural pattern; otherwise it is pristine.  In
particular a file with exactly 5 lines after the preamble is always an
error, pattern match or not. -/
theorem C3_amended_error_iff_five_or_no_match (content first : String) (rest : List String)
    (h : pySplitLines content = first :: rest)
    (hm : startsWithMarker first = true) :
    (isGeneratedStub content = Except.error StubError.modifiedStubMarkedAsGenerated ↔
      (5 ≤ rest.length ∨ generatedStubReMatch (String.join (rest.take 5)) = false)) ∧
    (isGeneratedStub content = Except.ok true ↔
      (rest.length < 5 ∧ generatedStubReMatch (String.join (rest.take 5)) = true)) := by
  have hlen : (rest.take 5).length = min 5 rest.length := List.length_take 5 rest
  unfold isGeneratedStub
  rw [h]
  simp only [hm, if_true]
  cases hc : ((rest.take 5).length == 5 || !generatedStubReMatch (String.join (rest.take 5)))
  · rw [Bool.or_eq_false_iff] at hc
    obtain ⟨h1, h2⟩ := hc
    rw [beq_eq_false_iff_ne, hlen] at h1
    rw [Bool.not_eq_false'] at h2
    constructor
    · simp [h2]
      omega
    · simp [h2]
      omega
  · rw [Bool.or_eq_true] at hc
    constructor
    · simp
      rcases hc with h1 | h2
      · rw [beq_iff_eq, hlen] at h1
        left
        omega
      · right
        rwa [Bool.not_eq_true'] at h2
    · simp
      intro hlt
      rcases hc with h1 | h2
      · rw [beq_iff_eq, hlen] at h1
        exact absurd hlt (by omega)
      · rwa [Bool.not_eq_true'] at h2

/-- A marker line followed by a 3-line pristine body using the one-line
class-declaration form (the space alternative of the pattern). -/
def contentC3wit : String := "// generated\nprivate import Y\n\nclass C extends D \x7b \x7d"

/-- C3 witness: a marker line with a 3-line matching body is pristine. -/
theorem C3_witness : isGeneratedStub contentC3wit = Except.ok true :=
  (C3_amended_error_iff_five_or_no_match contentC3wit "// generated\n"
    ["private import Y\n", "\n", "class C extends D \x7b \x7d"] rfl rfl).2.mpr
    ⟨by decide, rfl⟩

/-- C10: an existing stub file with zero lines is classified user-owned by
the guard (`False`, no error raised), so the driver does not rewrite it and
does not count it among the run's existing generated outputs (the
`existing` set only admits stub files on which the guard returns `True`). -/
theorem C10_empty_stub_user_owned :
    isGeneratedStub "" = Except.ok false ∧
    stubShouldRender true "" = Except.ok false :=
  ⟨rfl, rfl⟩

/-! ## Relational-mapper claims (C1, C8) -/

lemma singleSlots_length (i : Nat) (props : List SchemaProperty) (k : Nat) :
    (singleSlots i props k).length = props.countP SchemaProperty.is_single := by
  induction props generalizing k with
  | nil => simp [singleSlots]
  | cons p rest ih =>
    by_cases hp : p.is_single
    · simp [singleSlots, hp, ih, List.countP_cons]
    · simp [singleSlots, hp, ih, List.countP_cons]

lemma singleSlots_count_of_lt (i : Nat) (props : List SchemaProperty) (k : Nat)
    (h : i < k) : (singleSlots i props k).count "result" = 0 := by
  induction props generalizing k with
  | nil => simp [singleSlots]
  | cons p rest ih =>
    have hk : ¬ k = i := by omega
    by_cases hp : p.is_single
    · simp [singleSlots, hp, hk, List.count_cons, ih (k + 1) (by omega)]
    · simp [singleSlots, hp, ih (k + 1) (by omega)]

lemma singleSlots_count_hit (i : Nat) (props : List SchemaProperty) (k : Nat)
    (p : SchemaProperty) (hk : k ≤ i) (hp : props[i - k]? = some p)
    (hs : p.is_single = true) :
    (singleSlots i props k).count "result" = 1 := by
  induction props generalizing k with
  | nil => simp at hp
  | cons q rest ih =>
    by_cases hik : k = i
    · subst hik
      rw [Nat.sub_self] at hp
      rw [List.getElem?_cons_zero] at hp
      obtain rfl : q = p := by injection hp
      simp [singleSlots, hs, List.count_cons,
        singleSlots_count_of_lt k rest (k + 1) (by omega)]
    · have hklt : k < i := by omega
      have hsub : i - k = (i - (k + 1)) + 1 := by omega
      rw [hsub, List.getElem?_cons_succ] at hp
      have := ih (k + 1) (by omega) hp
      by_cases hq : q.is_single
      · simp [singleSlots, hq, hik, List.count_cons, this]
      · simp [singleSlots, hq, this]

/-- The single-property branch of `get_ql_property` assigns the tableized
class name as table name. -/
lemma tablename_of_single (cls : SchemaClass) (i : Nat) (prop : SchemaProperty)
    (h : cls.properties[i]? = some prop) (hs : prop.is_single = true) :
    (getQlProperty cls i).map (fun q => q.tablename) = some (tableize cls.name) := by
  have hmul : prop.multiplicity = Multiplicity.single := by
    cases hm : prop.multiplicity <;> simp [SchemaProperty.is_single, hm] at hs ⊢
  simp [getQlProperty, h, hmul]

/-- C1: for a `single` property at position `i` of class `cls`, the mapped
column binding is the fixed "this" column followed by one slot per single
property of `cls` in declared order — the slot of the property itself holds
"result", every other single property's slot holds the ignore placeholder —
so it has exactly one "result" slot and length 1 + (number of single
properties); the table name is the tableized class name. -/
theorem C1_single_property_binding (cls : SchemaClass) (i : Nat)
    (prop : SchemaProperty) (h : cls.properties[i]? = some prop)
    (hs : prop.is_single = true) :
    (getQlProperty cls i).map (fun q => q.tablename) = some (tableize cls.name) ∧
    (getQlProperty cls i).map (fun q => q.tableparams) =
      some ("this" :: singleSlots i cls.properties 0) ∧
    (getQlProperty cls i).map (fun q => q.tableparams.length) =
      some (1 + cls.properties.countP SchemaProperty.is_single) ∧
    (getQlProperty cls i).map (fun q => q.tableparams.count "result") = some 1 := by
  have hmul : prop.multiplicity = Multiplicity.single := by
    cases hm : prop.multiplicity <;> simp [SchemaProperty.is_single, hm] at hs ⊢
  have hcount : (singleSlots i cls.properties 0).count "result" = 1 :=
    singleSlots_count_hit i cls.properties 0 prop (Nat.zero_le i) (by simpa using h) hs
  simp only [getQlProperty, h, hmul, Option.map_some']
  refine ⟨by trivial, by trivial, ?_, ?_⟩
  · simp [singleSlots_length]
    omega
  · simp [List.count_cons, hcount]

/-- Fixture for C1's witness: a class with two single properties separated
by a repeated one. -/
def clsC1 : SchemaClass :=
  { name := "Point"
    properties :=
      [{ name := "x", type := "int", multiplicity := Multiplicity.single },
       { name := "elems", type := "Elem", multiplicity := Multiplicity.repeated },
       { name := "y", type := "int", multiplicity := Multiplicity.single }] }

/-- C1 witness: the binding of `clsC1`'s second single property. -/
theorem C1_witness :
    (getQlProperty clsC1 2).map (fun q => q.tableparams) =
      some ["this", "_", "result"] ∧
    (getQlProperty clsC1 2).map (fun q => q.tableparams.count "result") = some 1 := by
  obtain ⟨-, h2, -, h4⟩ := C1_single_property_binding clsC1 2 _ rfl rfl
  exact ⟨by rw [h2]; rfl, h4⟩

/-- Fixture for C8: a class with two distinct single properties. -/
def clsC8 : SchemaClass :=
  { name := "Foo"
    properties :=
      [{ name := "x", type := "string", multiplicity := Multiplicity.single },
       { name := "y", type := "string", multiplicity := Multiplicity.single }] }

/-- C8 counterexample: table-name derivation is not injective across
distinct properties — the two distinct single properties of `clsC8` both map
to the single table named after the class. -/
theorem C8_cex_shared_single_table :
    clsC8.properties[0]? ≠ clsC8.properties[1]? ∧
    (getQlProperty clsC8 0).map (fun q => q.tablename) = some "foos" ∧
    (getQlProperty clsC8 1).map (fun q => q.tablename) = some "foos" :=
  ⟨by decide, rfl, rfl⟩

/-- C8 (amended): the mapper is deterministic — mapping the same schema
twice yields identical results — but table names are not injective across
distinct properties: any two single properties of one class share the
tableized class name (by design, the class's one table holds all its single
columns). -/
theorem C8_amended_deterministic_not_injective (classes : List SchemaClass)
    (cls : SchemaClass) (i j : Nat) (p1 p2 : SchemaProperty)
    (hi : cls.properties[i]? = some p1) (hj : cls.properties[j]? = some p2)
    (hs1 : p1.is_single = true) (hs2 : p2.is_single = true) :
    mapSchema classes = mapSchema classes ∧
    (getQlProperty cls i).map (fun q => q.tablename) =
      (getQlProperty cls j).map (fun q => q.tablename) := by
  refine ⟨rfl, ?_⟩
  rw [tablename_of_single cls i p1 hi hs1, tablename_of_single cls j p2 hj hs2]

/-- C8 witness: determinism and table sharing at the concrete class `clsC8`. -/
theorem C8_witness :
    (getQlProperty clsC8 0).map (fun q => q.tablename) =
      (getQlProperty clsC8 1).map (fun q => q.tablename) :=
  (C8_amended_deterministic_not_injective [clsC8] clsC8 0 1 _ _ rfl rfl rfl rfl).2

/-! ## Import-resolver claims (C7, C9) -/

lemma lexLeChars_total : ∀ as bs : List Char,
    lexLeChars as bs = true ∨ lexLeChars bs as = true := by
  intro as
  induction as with
  | nil => intro bs; left; rfl
  | cons a as ih =>
    intro bs
    cases bs with
    | nil => right; rfl
    | cons b bs =>
      by_cases hab : a < b
      · left; simp [lexLeChars, hab]
      · by_cases hba : b < a
        · right; simp [lexLeChars, hba]
        · rcases ih bs with h | h
          · left; simp [lexLeChars, hab, hba, h]
          · right; simp [lexLeChars, hab, hba, h]

lemma lexLeChars_trans : ∀ as bs cs : List Char,
    lexLeChars as bs = true → lexLeChars bs cs = true → lexLeChars as cs = true := by
  intro as
  induction as with
  | nil => intro bs cs _ _; rfl
  | cons a as ih =>
    intro bs cs h1 h2
    cases bs with
    | nil => simp [lexLeChars] at h1
    | cons b bs =>
      cases cs with
      | nil => simp [lexLeChars] at h2
      | cons c cs =>
        by_cases hab : a < b
        · by_cases hbc : b < c
          · simp [lexLeChars, lt_trans hab hbc]
          · by_cases hcb : c < b
            · simp [lexLeChars, hbc, hcb] at h2
            · obtain rfl : b = c := le_antisymm (not_lt.mp hcb) (not_lt.mp hbc)
              simp [lexLeChars, hab]
        · by_cases hba : b < a
          · simp [lexLeChars, hab, hba] at h1
          · obtain rfl : a = b := le_antisymm (not_lt.mp hba) (not_lt.mp hab)
            by_cases hbc : a < c
            · simp [lexLeChars, hbc]
            · by_cases hcb : c < a
              · simp [lexLeChars, hbc, hcb] at h2
              · obtain rfl : a = c := le_antisymm (not_lt.mp hcb) (not_lt.mp hbc)
                simp only [lexLeChars, lt_irrefl, if_false] at h1 h2 ⊢
                exact ih bs cs h1 h2

instance : IsTotal String (fun a b => strLe a b = true) :=
  ⟨fun a b => lexLeChars_total a.data b.data⟩

instance : IsTrans String (fun a b => strLe a b = true) :=
  ⟨fun a b c => lexLeChars_trans a.data b.data c.data⟩

/-- C7: the class-reference set of a mapped class is exactly the used types
(base names and property types) whose name starts with an uppercase letter,
without duplicates and sorted lexicographically (Python's code-point string
order, `strLe`); the computation is a pure function, so two runs on the same
class agree.  (The hypothesis excludes empty type names, on which the source
would raise `IndexError`.) -/
theorem C7_class_references (cls : QLClass)
    (_hne : ∀ t ∈ getTypesUsedBy cls, t ≠ "") :
    List.Sorted (fun a b => strLe a b = true) (getClassesUsedBy cls) ∧
    (getClassesUsedBy cls).Nodup ∧
    (∀ t, t ∈ getClassesUsedBy cls ↔ (t ∈ getTypesUsedBy cls ∧ isClassRef t = true)) ∧
    getClassesUsedBy cls = getClassesUsedBy cls := by
  refine ⟨?_, ?_, ?_, rfl⟩
  · exact List.sorted_insertionSort (fun a b => strLe a b = true) _
  · exact (List.perm_insertionSort (fun a b => strLe a b = true) _).nodup_iff.mpr
      (List.nodup_dedup _)
  · intro t
    rw [getClassesUsedBy, (List.perm_insertionSort (fun a b => strLe a b = true) _).mem_iff,
      List.mem_dedup, List.mem_filter]

/-- Fixture for C7's witness. -/
def clsC7 : QLClass :=
  { name := "D"
    bases := ["B", "A"]
    properties := [{ type := "string" }, { type := "Zeta" }, { type := "A" }] }

/-- C7 witness: reference-set facts at the concrete class `clsC7`. -/
theorem C7_witness :
    ("A" ∈ getClassesUsedBy clsC7 ↔
      ("A" ∈ getTypesUsedBy clsC7 ∧ isClassRef "A" = true)) ∧
    (getClassesUsedBy clsC7).Nodup :=
  ⟨(C7_class_references clsC7 (by decide)).2.2.1 "A",
   (C7_class_references clsC7 (by decide)).2.1⟩

lemma resolveImportsList_eq_none (importMap : List (String × String))
    (l : List String) (t : String) (ht : t ∈ l)
    (hmiss : importMap.lookup t = none) :
    resolveImportsList importMap l = none := by
  induction l with
  | nil => cases ht
  | cons a rest ih =>
    rcases List.mem_cons.mp ht with h | h
    · subst h
      simp [resolveImportsList, hmiss]
    · unfold resolveImportsList
      cases hl : importMap.lookup a
      · rfl
      · rw [ih h]

/-- C9: if a class references a name absent from the schema-wide
name→import-path map, the per-class import computation yields no (even
partial) import list, and the emission loop of `generate` aborts with an
error whenever that class is in the run — it is never emitted with an
invalid or partial import list. -/
theorem C9_broken_reference_aborts (importMap : List (String × String))
    (cls : QLClass) (t : String) (ht : t ∈ getClassesUsedBy cls)
    (hmiss : importMap.lookup t = none) :
    resolveImports importMap cls = none ∧
    ∀ classes, cls ∈ classes →
      ∃ e, emitClasses importMap classes = Except.error e := by
  have hres : resolveImports importMap cls = none :=
    resolveImportsList_eq_none importMap _ t ht hmiss
  refine ⟨hres, ?_⟩
  intro classes hmem
  induction classes with
  | nil => cases hmem
  | cons c rest ih =>
    rcases List.mem_cons.mp hmem with h | h
    · subst h
      exact ⟨cls.name, by simp [emitClasses, hres]⟩
    · unfold emitClasses
      cases hc : resolveImports importMap c
      · exact ⟨c.name, rfl⟩
      · obtain ⟨e, he⟩ := ih h
        exact ⟨e, by rw [he]⟩

/-- Fixture for C9's witness: a class referencing the unknown class "B". -/
def clsC9 : QLClass := { name := "D", bases := ["A", "B"] }

/-- C9 witness: with an import map that only knows "A", resolving `clsC9`'s
imports aborts. -/
theorem C9_witness :
    resolveImports [("A", "codegen.A")] clsC9 = none :=
  (C9_broken_reference_aborts [("A", "codegen.A")] clsC9 "B" (by decide) rfl).1

/-! ## Hierarchy-analyzer claims (C4, C5) -/

lemma isUnderCollapsed_of_none (env : List QLClass) (i : Nat)
    (h : env[i]? = none) : isUnderCollapsed env i = false := by
  unfold isUnderCollapsed
  simp [h]

lemma isUnderCollapsed_eq (env : List QLClass) (i : Nat) (c : QLClass)
    (h : env[i]? = some c) :
    isUnderCollapsed env i =
      (!c.qltest_uncollapse_hierarchy && anyBaseCollapsed env i c.bases) := by
  conv_lhs => rw [isUnderCollapsed]
  simp [h]

lemma isInCollapsed_eq (env : List QLClass) (j : Nat) (c : QLClass)
    (h : env[j]? = some c) :
    isInCollapsed env j =
      (c.qltest_collapse_hierarchy || isUnderCollapsed env j) := by
  conv_lhs => rw [isInCollapsed]
  simp [h]

lemma anyBaseCollapsed_of_mem (env : List QLClass) (i : Nat) (bs : List String)
    (b : String) (j : Nat) (hb : b ∈ bs) (hres : resolveBase env b = some j)
    (hj : j < i) (hin : isInCollapsed env j = true) :
    anyBaseCollapsed env i bs = true := by
  induction bs with
  | nil => cases hb
  | cons a rest ih =>
    unfold anyBaseCollapsed
    rw [Bool.or_eq_true]
    rcases List.mem_cons.mp hb with h | h
    · subst h
      left
      rw [hres]
      simp [hj, hin]
    · right
      exact ih h

lemma envWF_base_lt (env : List QLClass) (hwf : envWF env = true)
    (i : Nat) (c : QLClass) (h : env[i]? = some c) (b : String)
    (hb : b ∈ c.bases) :
    ∃ j, resolveBase env b = some j ∧ j < i := by
  unfold envWF at hwf
  rw [Bool.and_eq_true] at hwf
  obtain ⟨-, hall⟩ := hwf
  rw [List.all_eq_true] at hall
  have hi : i < env.length := by
    by_contra hcon
    rw [List.getElem?_eq_none (by omega)] at h
    cases h
  have hcls := hall i (List.mem_range.mpr hi)
  rw [h] at hcls
  simp only [List.all_eq_true] at hcls
  have hbase := hcls b hb
  cases hres : resolveBase env b with
  | none => rw [hres] at hbase; cases hbase
  | some j =>
    rw [hres] at hbase
    exact ⟨j, rfl, by simpa using hbase⟩

/-- C4: a class is skipped for test generation iff it carries the skip-tests
pragma, or it is neither final nor explicitly collapsed, or it is under a
collapsed hierarchy (in the sense of the source's recursive predicate,
characterized by C5). -/
theorem C4_skip_test_iff (env : List QLClass) (i : Nat) (c : QLClass)
    (h : env[i]? = some c) :
    shouldSkipQltest env i = true ↔
      (c.qltest_skip = true ∨
        (c.final = false ∧ c.qltest_collapse_hierarchy = false) ∨
        isUnderCollapsed env i = true) := by
  unfold shouldSkipQltest
  rw [h]
  simp only [Bool.or_eq_true, Bool.not_eq_true', Bool.or_eq_false_iff]
  tauto

/-- Fixture: spec scenario 4 — `Base`, non-final `Mid(Base)`, final
`Leaf2(Mid)`. -/
def envS4 : List QLClass :=
  [{ name := "Base" }, { name := "Mid", bases := ["Base"] },
   { name := "Leaf2", bases := ["Mid"], final := true }]

/-- C4 witness: non-final, non-collapsed `Mid` is skipped. -/
theorem C4_witness : shouldSkipQltest envS4 1 = true :=
  (C4_skip_test_iff envS4 1 { name := "Mid", bases := ["Base"] } rfl).mpr
    (Or.inr (Or.inl ⟨rfl, rfl⟩))

/-- Fixture: C5's counterexample classes — `B` explicitly collapsed, `X(B)`
with the uncollapse override, `D(X)` with no pragmas. -/
def clsB5 : QLClass := { name := "B", qltest_collapse_hierarchy := true }

/-- `X(B)`, carrying the uncollapse override. -/
def clsX5 : QLClass := { name := "X", bases := ["B"], qltest_uncollapse_hierarchy := true }

/-- `D(X)`, no pragmas. -/
def clsD5 : QLClass := { name := "D", bases := ["X"] }

/-- The counterexample class set for C5. -/
def envC5cex : List QLClass := [clsB5, clsX5, clsD5]

lemma envC5cex_under1 : isUnderCollapsed envC5cex 1 = false := by
  rw [isUnderCollapsed_eq envC5cex 1 clsX5 rfl]
  simp [clsX5]

lemma envC5cex_in1 : isInCollapsed envC5cex 1 = false := by
  rw [isInCollapsed_eq envC5cex 1 clsX5 rfl]
  simp [clsX5, envC5cex_under1]

lemma envC5cex_under2 : isUnderCollapsed envC5cex 2 = false := by
  rw [isUnderCollapsed_eq envC5cex 2 clsD5 rfl]
  have hres : resolveBase envC5cex "X" = some 1 := rfl
  simp only [clsD5]
  unfold anyBaseCollapsed
  rw [hres]
  simp [envC5cex_in1, anyBaseCollapsed]

/-- C5 counterexample: in `envC5cex` the inheritance graph is acyclic, `B`
(index 0) is collapsed and `D` (index 2) derives transitively from `B` and
carries no uncollapse override, yet `D` is not under-collapsed — the
intermediate class `X`'s uncollapse override breaks the claimed
monotonicity. -/
theorem C5_cex_intermediate_override_blocks :
    envWF envC5cex = true ∧
    isInCollapsed envC5cex 0 = true ∧
    Derives envC5cex 2 0 ∧
    (envC5cex[2]?).map (fun c => c.qltest_uncollapse_hierarchy) = some false ∧
    isUnderCollapsed envC5cex 2 = false := by
  refine ⟨by decide, ?_, ?_, by decide, envC5cex_under2⟩
  · rw [isInCollapsed_eq envC5cex 0 clsB5 rfl]
    simp [clsB5]
  · exact Derives.trans 2 1 0
      (Derives.direct 2 clsD5 "X" 1 rfl (by simp [clsD5]) rfl)
      (Derives.direct 1 clsX5 "B" 0 rfl (by simp [clsX5]) rfl)

/-- C5 (amended): collapsing is monotonic along clean derivation chains —
if `B` is collapsed and `D` derives from `B` through a chain on which every
class strictly below `B` (including `D`) lacks the uncollapse override,
then `D` is under-collapsed; and a class carrying the uncollapse override is
never under-collapsed, whatever its ancestors.  (An override on an
intermediate class stops the propagation, see the counterexample.) -/
theorem C5_amended_monotone_on_clean_chains (env : List QLClass) (i j : Nat)
    (hwf : envWF env = true) :
    (CleanDerives env i j → isInCollapsed env j = true →
      isUnderCollapsed env i = true) ∧
    (∀ c, env[i]? = some c → c.qltest_uncollapse_hierarchy = true →
      isUnderCollapsed env i = false) := by
  constructor
  · intro hcd
    induction hcd with
    | direct d c b j2 henv hunc hb hres =>
      intro hin
      obtain ⟨j3, hres3, hlt⟩ := envWF_base_lt env hwf d c henv b hb
      rw [hres] at hres3
      obtain rfl : j2 = j3 := by injection hres3
      rw [isUnderCollapsed_eq env d c henv, hunc]
      simp [anyBaseCollapsed_of_mem env d c.bases b j2 hb hres hlt hin]
    | tail d c b k j2 henv hunc hb hres hcd2 ih =>
      intro hin
      obtain ⟨k2, hres2, hlt⟩ := envWF_base_lt env hwf d c henv b hb
      rw [hres] at hres2
      obtain rfl : k = k2 := by injection hres2
      have hu : isUnderCollapsed env k = true := ih hin
      obtain ⟨ck, hck⟩ : ∃ ck, env[k]? = some ck := by
        cases hk : env[k]? with
        | none => rw [isUnderCollapsed_of_none env k hk] at hu; cases hu
        | some ck => exact ⟨ck, rfl⟩
      have hik : isInCollapsed env k = true := by
        rw [isInCollapsed_eq env k ck hck, hu, Bool.or_true]
      rw [isUnderCollapsed_eq env d c henv, hunc]
      simp [anyBaseCollapsed_of_mem env d c.bases b k hb hres hlt hik]
  · intro c hc hunc
    rw [isUnderCollapsed_eq env i c hc, hunc]
    rfl

/-- `M(B)`, no pragmas (C5 witness chain). -/
def clsM5 : QLClass := { name := "M", bases := ["B"] }

/-- `D(M)`, no pragmas (C5 witness chain). -/
def clsD5w : QLClass := { name := "D", bases := ["M"] }

/-- Fixture: C5's witness — a clean chain `B` (collapsed) ← `M` ← `D`. -/
def envC5wit : List QLClass := [clsB5, clsM5, clsD5w]

/-- C5 witness: along the clean chain of `envC5wit`, `D` is under-collapsed;
and the overriding class `X` of `envC5cex` is not. -/
theorem C5_witness :
    isUnderCollapsed envC5wit 2 = true ∧
    isUnderCollapsed envC5cex 1 = false := by
  constructor
  · refine (C5_amended_monotone_on_clean_chains envC5wit 2 0 (by decide)).1
      (CleanDerives.tail 2 clsD5w "M" 1 0 rfl rfl (by simp [clsD5w]) rfl
        (CleanDerives.direct 1 clsM5 "B" 0 rfl rfl (by simp [clsM5]) rfl)) ?_
    rw [isInCollapsed_eq envC5wit 0 clsB5 rfl]
    simp [clsB5]
  · exact (C5_amended_monotone_on_clean_chains envC5cex 1 0 (by decide)).2
      clsX5 rfl rfl

/-! ## Property-flattening claim (C6) -/

lemma filterTested_not_skipped (env : List QLClass) :
    ∀ (l seen : List (Nat × Nat)), ∀ x ∈ filterTested env l seen,
      skippedProp env x = false := by
  intro l
  induction l with
  | nil => intro seen x hx; simp [filterTested] at hx
  | cons y rest ih =>
    intro seen x hx
    unfold filterTested at hx
    split at hx
    · exact ih seen x hx
    · rename_i hcond
      rcases List.mem_cons.mp hx with h | h
      · subst h
        simp only [Bool.or_eq_true, not_or, Bool.not_eq_true] at hcond
        exact hcond.1
      · exact ih (y :: seen) x h

lemma filterTested_not_mem_seen (env : List QLClass) :
    ∀ (l seen : List (Nat × Nat)), ∀ x ∈ filterTested env l seen,
      seen.contains x = false := by
  intro l
  induction l with
  | nil => intro seen x hx; simp [filterTested] at hx
  | cons y rest ih =>
    intro seen x hx
    unfold filterTested at hx
    split at hx
    · exact ih seen x hx
    · rename_i hcond
      rcases List.mem_cons.mp hx with h | h
      · subst h
        simp only [Bool.or_eq_true, not_or, Bool.not_eq_true] at hcond
        exact hcond.2
      · have hcons := ih (y :: seen) x h
        rw [List.contains_cons, Bool.or_eq_false_iff] at hcons
        exact hcons.2

lemma filterTested_nodup (env : List QLClass) :
    ∀ (l seen : List (Nat × Nat)), (filterTested env l seen).Nodup := by
  intro l
  induction l with
  | nil => intro seen; simp [filterTested]
  | cons y rest ih =>
    intro seen
    unfold filterTested
    split
    · exact ih seen
    · rw [List.nodup_cons]
      refine ⟨?_, ih (y :: seen)⟩
      intro hy
      have hcons := filterTested_not_mem_seen env rest (y :: seen) y hy
      rw [List.contains_cons] at hcons
      simp at hcons

lemma filterTested_mem (env : List QLClass) :
    ∀ (l seen : List (Nat × Nat)) (x : Nat × Nat), x ∈ l →
      skippedProp env x = false → seen.contains x = false →
      x ∈ filterTested env l seen := by
  intro l
  induction l with
  | nil => intro seen x hx; cases hx
  | cons y rest ih =>
    intro seen x hx hsk hns
    unfold filterTested
    by_cases hxy : x = y
    · subst hxy
      have hcond : (skippedProp env x || seen.contains x) = false := by
        rw [hsk, hns]
        rfl
      rw [hcond]
      exact List.mem_cons_self x _
    · rcases List.mem_cons.mp hx with h | h
      · exact absurd h hxy
      · split
        · exact ih seen x h hsk hns
        · apply List.mem_cons_of_mem
          apply ih (y :: seen) x h hsk
          rw [List.contains_cons, Bool.or_eq_false_iff]
          exact ⟨beq_eq_false_iff_ne.mpr hxy, hns⟩

lemma count_eq_one_of_nodup_mem {a : Nat × Nat} {l : List (Nat × Nat)}
    (hn : l.Nodup) (hm : a ∈ l) : l.count a = 1 := by
  induction l with
  | nil => cases hm
  | cons b xs ih =>
    rw [List.nodup_cons] at hn
    rcases List.mem_cons.mp hm with rfl | h
    · rw [List.count_cons_self, List.count_eq_zero_of_not_mem hn.1]
    · have hne : a ≠ b := by
        rintro rfl
        exact hn.1 h
      rw [List.count_cons_of_ne hne]
      exact ih hn.2 h

/-- C6: the flattened test-property set of any class contains no duplicate
property identity (so under diamond inheritance a shared ancestor's property
occurs at most once), it excludes every property or owning class marked
"skip in tests", and every non-skipped property reachable by flattening
occurs in it exactly once. -/
theorem C6_flattened_no_duplicates (env : List QLClass) (i : Nat) :
    (getAllPropertiesToBeTested env i).Nodup ∧
    (∀ a q c p, (a, q) ∈ getAllPropertiesToBeTested env i →
      env[a]? = some c → c.properties[q]? = some p →
      c.qltest_skip = false ∧ p.qltest_skip = false) ∧
    (∀ a q c p, (a, q) ∈ getAllProperties env i →
      env[a]? = some c → c.properties[q]? = some p →
      c.qltest_skip = false → p.qltest_skip = false →
      (getAllPropertiesToBeTested env i).count (a, q) = 1) := by
  refine ⟨filterTested_nodup env _ [], ?_, ?_⟩
  · intro a q c p hmem hc hp
    have hsk := filterTested_not_skipped env _ [] (a, q) hmem
    simp only [skippedProp, hc, hp, Bool.or_eq_false_iff] at hsk
    exact hsk
  · intro a q c p hmem hc hp hcs hps
    have hsk : skippedProp env (a, q) = false := by
      simp only [skippedProp, hc, hp, hcs, hps]
      rfl
    have hm : (a, q) ∈ getAllPropertiesToBeTested env i :=
      filterTested_mem env _ [] (a, q) hmem hsk rfl
    exact count_eq_one_of_nodup_mem (filterTested_nodup env _ []) hm

lemma getAllProperties_eq (env : List QLClass) (i : Nat) (c : QLClass)
    (h : env[i]? = some c) :
    getAllProperties env i =
      getAllPropertiesBases env i c.bases ++
        (List.range c.properties.length).map (fun j => (i, j)) := by
  conv_lhs => rw [getAllProperties]
  simp [h]

lemma getAllPropertiesBases_nil (env : List QLClass) (i : Nat) :
    getAllPropertiesBases env i [] = [] := by
  rw [getAllPropertiesBases]

lemma getAllPropertiesBases_cons (env : List QLClass) (i : Nat) (b : String)
    (bs : List String) (j : Nat) (hres : resolveBase env b = some j)
    (hj : j < i) :
    getAllPropertiesBases env i (b :: bs) =
      getAllProperties env j ++ getAllPropertiesBases env i bs := by
  conv_lhs => rw [getAllPropertiesBases]
  simp [hres, hj]

/-- Fixture classes for C6's witness: the diamond `A` ← `B1`,`B2` ← `D`,
with one property `p` declared on `A`. -/
def clsA6 : QLClass := { name := "A", properties := [{ singular := "p", type := "int" }] }

/-- `B1(A)`. -/
def clsB61 : QLClass := { name := "B1", bases := ["A"] }

/-- `B2(A)`. -/
def clsB62 : QLClass := { name := "B2", bases := ["A"] }

/-- `D(B1, B2)`. -/
def clsD6 : QLClass := { name := "D", bases := ["B1", "B2"] }

/-- The diamond class set. -/
def diamondEnv : List QLClass := [clsA6, clsB61, clsB62, clsD6]

lemma diamondEnv_getAll0 : getAllProperties diamondEnv 0 = [(0, 0)] := by
  rw [getAllProperties_eq diamondEnv 0 clsA6 rfl]
  rw [show clsA6.bases = [] from rfl]
  rw [getAllPropertiesBases_nil]
  rfl

lemma diamondEnv_getAll1 : getAllProperties diamondEnv 1 = [(0, 0)] := by
  rw [getAllProperties_eq diamondEnv 1 clsB61 rfl]
  rw [show clsB61.bases = ["A"] from rfl]
  rw [getAllPropertiesBases_cons diamondEnv 1 "A" [] 0 rfl (by omega)]
  rw [getAllPropertiesBases_nil, diamondEnv_getAll0]
  rfl

lemma diamondEnv_getAll2 : getAllProperties diamondEnv 2 = [(0, 0)] := by
  rw [getAllProperties_eq diamondEnv 2 clsB62 rfl]
  rw [show clsB62.bases = ["A"] from rfl]
  rw [getAllPropertiesBases_cons diamondEnv 2 "A" [] 0 rfl (by omega)]
  rw [getAllPropertiesBases_nil, diamondEnv_getAll0]
  rfl

lemma diamondEnv_getAll3 : getAllProperties diamondEnv 3 = [(0, 0), (0, 0)] := by
  rw [getAllProperties_eq diamondEnv 3 clsD6 rfl]
  rw [show clsD6.bases = ["B1", "B2"] from rfl]
  rw [getAllPropertiesBases_cons diamondEnv 3 "B1" ["B2"] 1 rfl (by omega)]
  rw [getAllPropertiesBases_cons diamondEnv 3 "B2" [] 2 rfl (by omega)]
  rw [getAllPropertiesBases_nil, diamondEnv_getAll1, diamondEnv_getAll2]
  rfl

/-- C6 witness: in the diamond, `A`'s property occurs exactly once in `D`'s
flattened test-property set. -/
theorem C6_witness :
    (getAllPropertiesToBeTested diamondEnv 3).count (0, 0) = 1 := by
  refine (C6_flattened_no_duplicates diamondEnv 3).2.2 0 0 clsA6
    { singular := "p", type := "int" } ?_ rfl rfl rfl rfl
  rw [diamondEnv_getAll3]
  simp

end Codegen
